import Mathlib

set_option maxRecDepth 100000

/-!
Verification development for the Fireworks-AI cost agent.

The Python sources (`agent/browser_agent.py`, `agent/compare.py`,
`agent/github_pr.py`, `server.py`) are shallowly embedded below. Python
strings are modelled as `List Char` (all inputs of interest are ASCII),
Python floats as exact rationals `ℚ`, and fallible code as explicit result
types. Regular-expression searches are embedded as scanner functions that
implement the exact leftmost-match / greedy-with-backtracking semantics of
Python's `re` module for the concrete patterns appearing in the source;
each scanner is annotated with the pattern it embeds.
-/

/- ---------------------------------------------------------------------- -/
/- Character classes and Python string primitives                          -/
/- ---------------------------------------------------------------------- -/

/-- Whitespace, as in Python's `str.strip` and `re` `\s` (ASCII range). -/
def isWs (c : Char) : Bool :=
  c = ' ' || c = '\t' || c = '\n' || c = '\r' || c = '\x0b' || c = '\x0c'

/-- The class `[0-9]` (also Python `\d` on ASCII input). -/
def isDigitCh (c : Char) : Bool := '0' ≤ c && c ≤ '9'

/-- The class `[0-9.]` used by the pricing regexes. -/
def isNumCh (c : Char) : Bool := isDigitCh c || c = '.'

/-- Python `str.lstrip()`. -/
def trimLead (l : List Char) : List Char := l.dropWhile isWs

/-- Python `str.rstrip()`. -/
def trimTrail (l : List Char) : List Char := (l.reverse.dropWhile isWs).reverse

/-- Python `str.strip()`. -/
def pyStrip (l : List Char) : List Char := trimTrail (trimLead l)

/-- Length of the maximal run of characters satisfying `p`. -/
def countWhile (p : Char → Bool) (l : List Char) : Nat := (l.takeWhile p).length

/-- Match a literal character sequence, returning the remaining input. -/
def expectLit : List Char → List Char → Option (List Char)
  | [], s => some s
  | _ :: _, [] => none
  | c :: cs, d :: ds => if c = d then expectLit cs ds else none

/-- Python `str.lower()` (ASCII). -/
def lowerStr (l : List Char) : List Char := l.map Char.toLower

/-- Python `needle in hay` substring test. -/
def containsSub (needle : List Char) : List Char → Bool
  | [] => needle.isEmpty
  | c :: t => needle.isPrefixOf (c :: t) || containsSub needle t

/-- Worker for `strReplace`; the fuel is the input length, enough because
every step consumes at least one character. -/
def strReplaceFuel (old new : List Char) : Nat → List Char → List Char
  | 0, s => s
  | _ + 1, [] => []
  | fuel + 1, c :: t =>
    if old.isPrefixOf (c :: t) && !old.isEmpty then
      new ++ strReplaceFuel old new fuel ((c :: t).drop old.length)
    else c :: strReplaceFuel old new fuel t

/-- Python `s.replace(old, new)`: left-to-right, non-overlapping. (The
source only calls it with non-empty `old`.) -/
def strReplace (old new s : List Char) : List Char := strReplaceFuel old new s.length s

/-- Numeric value of a digit string, as Python `int(s)`. -/
def natVal (l : List Char) : Nat := l.foldl (fun a c => a * 10 + (c.toNat - '0'.toNat)) 0

/-- Value of a decimal numeral, as Python `float(s)` on well-formed input
such as "0.45", "45." or ".5". Python's binary floating point is modelled
by the exact rational value; on malformed input (e.g. "1.2.3", where
`float` raises) this total model ignores the trailing junk — no claim
depends on that case. -/
def ratOfNumeral (l : List Char) : ℚ :=
  let ip := l.takeWhile isDigitCh
  let rest := l.dropWhile isDigitCh
  match rest with
  | '.' :: fp =>
    let fd := fp.takeWhile isDigitCh
    mkRat ((natVal ip * 10 ^ fd.length + natVal fd : Nat) : Int) (10 ^ fd.length)
  | _ => mkRat ((natVal ip : Nat) : Int) 1

/-- Decimal rendering of a natural number. -/
def renderNat (n : Nat) : List Char := Nat.toDigits 10 n

/-- Python `round(x, 12)`. Python rounds the binary double half-to-even;
modelled as exact rational rounding: `⌊q·10¹² + 1/2⌋ / 10¹²`, written on
the numerator/denominator so that it evaluates in the kernel. No verified
claim depends on the rounded digits. -/
def roundTo12 (q : ℚ) : ℚ :=
  mkRat ((2 * (q.num * 1000000000000) + (q.den : Int)).fdiv (2 * (q.den : Int)))
    1000000000000

/-- Exact division by one million (`x / 1_000_000` of the source). -/
def divMillion (x : ℚ) : ℚ := mkRat x.num (x.den * 1000000)

/-- Digits of `m / 10^12` after the decimal point, trailing zeros removed. -/
def fracDigits12 (fr : Nat) : List Char :=
  let ds := renderNat fr
  let padded := List.replicate (12 - ds.length) '0' ++ ds
  (padded.reverse.dropWhile (fun c => c = '0')).reverse

/-- Decimal rendering of a cost value (a multiple of `10 ^ (-12)` after the
source's rounding). Python serializes the underlying float via `repr`,
which may use exponent notation instead; no verified claim depends on the
digits of newly generated entries. The integer `0` renders as "0" exactly
as Python renders the literal `0` the source uses for absent prices. -/
def renderCost (q : ℚ) : List Char :=
  let n : Int := (q.num * 1000000000000) / (q.den : Int)
  let sign : List Char := if n < 0 then ['-'] else []
  let m := n.natAbs
  let ip := m / 1000000000000
  let fr := m % 1000000000000
  if fr = 0 then sign ++ renderNat ip
  else sign ++ renderNat ip ++ '.' :: fracDigits12 fr

/- ---------------------------------------------------------------------- -/
/- JSON syntax checker (embeds the success/failure of `json.loads`)        -/
/- ---------------------------------------------------------------------- -/

/-- JSON insignificant whitespace as accepted by `json.loads`. -/
def isWsJ (c : Char) : Bool := c = ' ' || c = '\t' || c = '\n' || c = '\r'

def skipWsJ (l : List Char) : List Char := l.dropWhile isWsJ

def litTrue : List Char := ("rue").data
def litFalse : List Char := ("alse").data
def litNull : List Char := ("ull").data
def litNaN : List Char := ("aN").data
def litInf : List Char := ("nfinity").data

/-- JSON number tail: optional fraction then optional exponent (the integer
part has already been consumed). -/
def jsonNumTail (s : List Char) : Option (List Char) :=
  let afterFrac : Option (List Char) :=
    match s with
    | '.' :: t =>
      if (t.takeWhile isDigitCh).isEmpty then none else some (t.dropWhile isDigitCh)
    | _ => some s
  match afterFrac with
  | none => none
  | some s1 =>
    match s1 with
    | 'e' :: t => jsonExp t
    | 'E' :: t => jsonExp t
    | _ => some s1
where
  jsonExp (t : List Char) : Option (List Char) :=
    let t1 := match t with
      | '+' :: r => r
      | '-' :: r => r
      | r => r
    if (t1.takeWhile isDigitCh).isEmpty then none else some (t1.dropWhile isDigitCh)

/-- JSON number (without a leading minus, which the caller consumes):
`0` or `[1-9][0-9]*`, then fraction/exponent. Leading zeros are rejected,
as by `json.loads`. -/
def jsonNum (s : List Char) : Option (List Char) :=
  match s with
  | '0' :: t => jsonNumTail t
  | c :: t => if isDigitCh c && !(c = '0') then jsonNumTail (t.dropWhile isDigitCh) else none
  | [] => none

/-- JSON string body after the opening quote: escapes as accepted by
`json.loads` (strict mode: raw control characters are rejected). -/
def jsonStrBody : Nat → List Char → Option (List Char)
  | 0, _ => none
  | _ + 1, [] => none
  | fuel + 1, c :: t =>
    if c = '"' then some t
    else if c = '\\' then
      match t with
      | 'u' :: h1 :: h2 :: h3 :: h4 :: r =>
        if (h1.isDigit || ('a' ≤ h1 && h1 ≤ 'f') || ('A' ≤ h1 && h1 ≤ 'F')) &&
           (h2.isDigit || ('a' ≤ h2 && h2 ≤ 'f') || ('A' ≤ h2 && h2 ≤ 'F')) &&
           (h3.isDigit || ('a' ≤ h3 && h3 ≤ 'f') || ('A' ≤ h3 && h3 ≤ 'F')) &&
           (h4.isDigit || ('a' ≤ h4 && h4 ≤ 'f') || ('A' ≤ h4 && h4 ≤ 'F'))
        then jsonStrBody fuel r else none
      | e :: r =>
        if e = '"' || e = '\\' || e = '/' || e = 'b' || e = 'f' || e = 'n' || e = 'r' || e = 't'
        then jsonStrBody fuel r else none
      | [] => none
    else if c.toNat < 32 then none
    else jsonStrBody fuel t

mutual

/-- One JSON value; returns the rest of the input. The fuel only needs to
dominate the recursion depth, which `jsonChk` instantiates generously. -/
def jsonVal : Nat → List Char → Option (List Char)
  | 0, _ => none
  | fuel + 1, s =>
    match skipWsJ s with
    | '\x7b' :: t => jsonObj fuel t
    | '[' :: t => jsonArr fuel t
    | '"' :: t => jsonStrBody (t.length + 1) t
    | 't' :: t => expectLit litTrue t
    | 'f' :: t => expectLit litFalse t
    | 'n' :: t => expectLit litNull t
    | 'N' :: t => expectLit litNaN t
    | 'I' :: t => expectLit litInf t
    | '-' :: 'I' :: t => expectLit litInf t
    | '-' :: t => jsonNum t
    | c :: t => if isDigitCh c then jsonNum (c :: t) else none
    | [] => none

/-- Object body after the opening brace. -/
def jsonObj : Nat → List Char → Option (List Char)
  | 0, _ => none
  | fuel + 1, s =>
    match skipWsJ s with
    | '\x7d' :: t => some t
    | s' => jsonMembers fuel s'

/-- One or more `"key": value` members separated by commas, then the
closing brace. A comma must be followed by another member, so trailing
commas are rejected, as by `json.loads`. -/
def jsonMembers : Nat → List Char → Option (List Char)
  | 0, _ => none
  | fuel + 1, s =>
    match s with
    | '"' :: t =>
      match jsonStrBody (t.length + 1) t with
      | none => none
      | some r1 =>
        match skipWsJ r1 with
        | ':' :: r2 =>
          match jsonVal fuel r2 with
          | none => none
          | some r3 =>
            match skipWsJ r3 with
            | ',' :: r4 => jsonMembers fuel (skipWsJ r4)
            | '\x7d' :: r4 => some r4
            | _ => none
        | _ => none
    | _ => none

/-- Array body after the opening bracket. -/
def jsonArr : Nat → List Char → Option (List Char)
  | 0, _ => none
  | fuel + 1, s =>
    match skipWsJ s with
    | ']' :: t => some t
    | s' => jsonElems fuel s'

/-- One or more array elements separated by commas, then the closing
bracket. -/
def jsonElems : Nat → List Char → Option (List Char)
  | 0, _ => none
  | fuel + 1, s =>
    match jsonVal fuel s with
    | none => none
    | some r =>
      match skipWsJ r with
      | ',' :: r2 => jsonElems fuel r2
      | ']' :: r2 => some r2
      | _ => none

end

/-- Whether `json.loads` succeeds on the text. -/
def jsonChk (l : List Char) : Bool :=
  match jsonVal (4 * l.length + 8) l with
  | some r => (skipWsJ r).isEmpty
  | none => false

/- ---------------------------------------------------------------------- -/
/- agent/browser_agent.py : FireworksModel and to_litellm_format           -/
/- ---------------------------------------------------------------------- -/

/-- `FireworksModel` dataclass. -/
structure FireworksModel where
  name : List Char
  model_id : List Char
  input_cost_per_million : Option ℚ
  output_cost_per_million : Option ℚ
  unified_cost_per_million : Option ℚ
  context_window : Option Nat
  model_type : List Char
deriving DecidableEq

/-- The target shape produced by `to_litellm_format` (a dict with these
seven keys, in this insertion order). -/
structure LitellmEntry where
  max_tokens : Nat
  max_input_tokens : Nat
  max_output_tokens : Nat
  input_cost_per_token : ℚ
  output_cost_per_token : ℚ
  litellm_provider : List Char
  mode : List Char
deriving DecidableEq

/-- The `mode_map` dict lookup with default "chat". -/
def modeMap (t : List Char) : List Char :=
  if t = ("LLM").data then ("chat").data
  else if t = ("Vision").data then ("chat").data
  else if t = ("Image").data then ("image_generation").data
  else if t = ("Audio").data then ("audio_transcription").data
  else if t = ("Embedding").data then ("embedding").data
  else if t = ("Reranker").data then ("rerank").data
  else ("chat").data

/-- `self.context_window or 4096`: Python `or` treats both `None` and `0`
as absent. -/
def cwOr4096 : Option Nat → Nat
  | none => 4096
  | some n => if n = 0 then 4096 else n

/-- `FireworksModel.to_litellm_format`. Note the truthiness tests of the
source: `if self.input_cost_per_million` is false both for `None` and for
`0.0`, while the unified price is tested with `is not None`. -/
def FireworksModel.to_litellm_format (m : FireworksModel) : LitellmEntry :=
  let input_cost : ℚ :=
    match m.unified_cost_per_million with
    | some u => roundTo12 (divMillion u)
    | none =>
      match m.input_cost_per_million with
      | some x => if x = 0 then 0 else roundTo12 (divMillion x)
      | none => 0
  let output_cost : ℚ :=
    match m.unified_cost_per_million with
    | some u => roundTo12 (divMillion u)
    | none =>
      match m.output_cost_per_million with
      | some x => if x = 0 then 0 else roundTo12 (divMillion x)
      | none => 0
  let name_lower := lowerStr m.name
  let id_lower := lowerStr m.model_id
  let mode0 := modeMap m.model_type
  let mode :=
    if containsSub (("rerank").data) name_lower || containsSub (("rerank").data) id_lower then
      ("rerank").data
    else if containsSub (("embed").data) name_lower || containsSub (("embed").data) id_lower then
      ("embedding").data
    else if containsSub (("whisper").data) name_lower || containsSub (("asr").data) id_lower then
      ("audio_transcription").data
    else mode0
  LitellmEntry.mk (cwOr4096 m.context_window) (cwOr4096 m.context_window)
    (cwOr4096 m.context_window) input_cost output_cost (("fireworks_ai").data) mode

/- ---------------------------------------------------------------------- -/
/- agent/browser_agent.py : parse_pricing                                  -/
/- ---------------------------------------------------------------------- -/

def slashM : List Char := ("/M").data
def inputLit : List Char := ("Input").data
def outputLit : List Char := ("Output").data
def tokenLit : List Char := ("Token").data
def slashImage : List Char := ("/Image").data
def slashStep : List Char := ("/Step").data
def ctxLit : List Char := ("Context").data

/-- Attempt of `\$([0-9.]+)/M\s*Input\s*[•·]\s*\$([0-9.]+)/M\s*Output` at
the start of `s`, returning the two groups. Maximal-munch is equivalent to
the regex's greedy backtracking here because each quantified class is
disjoint from the character that must follow it. -/
def matchIOAt (s : List Char) : Option (List Char × List Char) :=
  match s with
  | '$' :: s1 =>
    let a := s1.takeWhile isNumCh
    if a.isEmpty then none else
    match expectLit slashM (s1.dropWhile isNumCh) with
    | none => none
    | some s2 =>
      match expectLit inputLit (s2.dropWhile isWs) with
      | none => none
      | some s3 =>
        match s3.dropWhile isWs with
        | c :: s4 =>
          if c = '•' || c = '·' then
            match s4.dropWhile isWs with
            | '$' :: s5 =>
              let b := s5.takeWhile isNumCh
              if b.isEmpty then none else
              match expectLit slashM (s5.dropWhile isNumCh) with
              | none => none
              | some s6 =>
                match expectLit outputLit (s6.dropWhile isWs) with
                | none => none
                | some _ => some (a, b)
            | _ => none
          else none
        | [] => none
  | _ => none

/-- `re.search` scan (leftmost position) for the input/output pattern. -/
def searchInOut : List Char → Option (List Char × List Char)
  | [] => none
  | c :: t =>
    match matchIOAt (c :: t) with
    | some g => some g
    | none => searchInOut t

/-- Attempt of `\$([0-9.]+)/M\s*Tokens?` at the start of `s`. The optional
trailing `s` cannot affect the group or the success of the search. -/
def matchTokensAt (s : List Char) : Option (List Char) :=
  match s with
  | '$' :: s1 =>
    let a := s1.takeWhile isNumCh
    if a.isEmpty then none else
    match expectLit slashM (s1.dropWhile isNumCh) with
    | none => none
    | some s2 =>
      match expectLit tokenLit (s2.dropWhile isWs) with
      | none => none
      | some _ => some a
  | _ => none

def searchTokens : List Char → Option (List Char)
  | [] => none
  | c :: t =>
    match matchTokensAt (c :: t) with
    | some g => some g
    | none => searchTokens t

/-- Attempt of `\$([0-9.]+)/Image` at the start of `s`. -/
def matchImageAt (s : List Char) : Option (List Char) :=
  match s with
  | '$' :: s1 =>
    let a := s1.takeWhile isNumCh
    if a.isEmpty then none else
    match expectLit slashImage (s1.dropWhile isNumCh) with
    | none => none
    | some _ => some a
  | _ => none

def searchImage : List Char → Option (List Char)
  | [] => none
  | c :: t =>
    match matchImageAt (c :: t) with
    | some g => some g
    | none => searchImage t

/-- Attempt of `\$([0-9.]+)/Step` at the start of `s`. -/
def matchStepAt (s : List Char) : Option (List Char) :=
  match s with
  | '$' :: s1 =>
    let a := s1.takeWhile isNumCh
    if a.isEmpty then none else
    match expectLit slashStep (s1.dropWhile isNumCh) with
    | none => none
    | some _ => some a
  | _ => none

def searchStep : List Char → Option (List Char)
  | [] => none
  | c :: t =>
    match matchStepAt (c :: t) with
    | some g => some g
    | none => searchStep t

/-- Attempt of `(\d+)\s*Context` at the start of `s`, returning the digit
group. -/
def matchCtxAt (s : List Char) : Option (List Char) :=
  let d := s.takeWhile isDigitCh
  if d.isEmpty then none
  else
    match expectLit ctxLit ((s.dropWhile isDigitCh).dropWhile isWs) with
    | some _ => some d
    | none => none

def searchCtx : List Char → Option (List Char)
  | [] => none
  | c :: t =>
    match matchCtxAt (c :: t) with
    | some g => some g
    | none => searchCtx t

/-- `parse_pricing`: the three price patterns in priority order, then the
independent context-window search. -/
def parse_pricing (pricing_text : List Char) :
    Option ℚ × Option ℚ × Option ℚ × Option Nat :=
  let prices : Option ℚ × Option ℚ × Option ℚ :=
    match searchInOut pricing_text with
    | some g => (some (ratOfNumeral g.1), some (ratOfNumeral g.2), none)
    | none =>
      match searchTokens pricing_text with
      | some a => (none, none, some (ratOfNumeral a))
      | none =>
        match searchImage pricing_text with
        | some a => (none, none, some (ratOfNumeral a))
        | none =>
          match searchStep pricing_text with
          | some a => (none, none, some (ratOfNumeral a))
          | none => (none, none, none)
  (prices.1, prices.2.1, prices.2.2, (searchCtx pricing_text).map natVal)

/- ---------------------------------------------------------------------- -/
/- agent/browser_agent.py : extract_model_id_from_url                      -/
/- ---------------------------------------------------------------------- -/

def modelsSeg : List Char := ("/models/").data

/-- Attempt of `/models/[^/]+/([^/\)]+)` at the start of `s`. -/
def matchIdAt (s : List Char) : Option (List Char) :=
  match expectLit modelsSeg s with
  | none => none
  | some s1 =>
    let seg1 := s1.takeWhile (fun c => !(c = '/'))
    if seg1.isEmpty then none else
    match s1.dropWhile (fun c => !(c = '/')) with
    | '/' :: s2 =>
      let seg2 := s2.takeWhile (fun c => !(c = '/') && !(c = ')'))
      if seg2.isEmpty then none else some seg2
    | _ => none

def searchId : List Char → Option (List Char)
  | [] => none
  | c :: t =>
    match matchIdAt (c :: t) with
    | some g => some g
    | none => searchId t

/-- `extract_model_id_from_url`: the captured group, or "" when the regex
does not match. -/
def extract_model_id_from_url (url : List Char) : List Char :=
  match searchId url with
  | some g => g
  | none => []

/- ---------------------------------------------------------------------- -/
/- agent/browser_agent.py : parse_firecrawl_markdown                       -/
/- ---------------------------------------------------------------------- -/

/-- Character class `[\\n\s]` of the block regex: a backslash, the letter
`n`, or whitespace (the scraped markdown carries literal `\n` sequences). -/
def inW (c : Char) : Bool := c = '\\' || c = 'n' || isWs c

/-- Character class `[^\\]`. -/
def notBsl (c : Char) : Bool := !(c = '\\')

/-- Character class `[^)\s]` of the URL group. -/
def urlCh (c : Char) : Bool := !(c = ')') && !(isWs c)

/-- Backtracking over the length taken by a greedy quantifier: try `n`,
`n-1`, ..., `0`, preferring the longest, as Python's engine does. -/
def tryDesc : Nat → (Nat → Option α) → Option α
  | 0, f => f 0
  | n + 1, f =>
    match f (n + 1) with
    | some r => some r
    | none => tryDesc n f

/-- As `tryDesc` but for a `+` quantifier: try `n`, ..., `1`. -/
def tryDescPos : Nat → (Nat → Option α) → Option α
  | 0, _ => none
  | n + 1, f =>
    match f (n + 1) with
    | some r => some r
    | none => tryDescPos n f

def starStar : List Char := ("**").data
def urlLit : List Char := ("https://fireworks.ai/models/").data

/-- The type alternation `(LLM|Vision|Image|Audio|Embedding|Reranker)`. -/
def typeAlts : List (List Char) :=
  [("LLM").data, ("Vision").data, ("Image").data, ("Audio").data,
   ("Embedding").data, ("Reranker").data]

/-- Tail of the block pattern: `\]?\(?(https://fireworks\.ai/models/[^)\s]+)`.
The two optionals are deterministic: when a `]` or `(` is present,
skipping it cannot lead to a match, because neither character can start
what must follow. Returns the captured URL group and the rest. -/
def matchTail3 (s : List Char) : Option (List Char × List Char) :=
  let s1 := match s with
    | ']' :: r => r
    | r => r
  let s2 := match s1 with
    | '(' :: r => r
    | r => r
  match expectLit urlLit s2 with
  | none => none
  | some s3 =>
    let u := s3.takeWhile urlCh
    if u.isEmpty then none
    else some (urlLit ++ u, s3.dropWhile urlCh)

/-- The optional type group followed by the pattern tail: alternatives are
tried in order, the empty option last, with backtracking into the tail —
exactly Python's preference order for `( ... )?`. Returns the type group
(possibly empty), the URL group, and the rest. -/
def tryAlts : List (List Char) → List Char → Option (List Char × List Char × List Char)
  | [], s =>
    match matchTail3 s with
    | some g => some ([], g.1, g.2)
    | none => none
  | t :: ts, s =>
    match expectLit t s with
    | some r =>
      (match matchTail3 r with
       | some g => some (t, g.1, g.2)
       | none => tryAlts ts s)
    | none => tryAlts ts s

/-- Attempt of the full block pattern
`\*\*([^*]+)\*\*[\\n\s]*([^\\]*(?:\$[^\\]+))[\\n\s]*(LLM|Vision|Image|Audio|Embedding|Reranker)?\]?\(?(https://fireworks\.ai/models/[^)\s]+)`
at the start of `s`. Greedy quantifiers backtrack longest-first in pattern
order via `tryDesc`, matching Python's depth-first search. Returns the four
groups and the rest of the input after the match. -/
def matchBlockAt (s : List Char) :
    Option ((List Char × List Char × List Char × List Char) × List Char) :=
  match expectLit starStar s with
  | none => none
  | some s1 =>
    let g1 := s1.takeWhile (fun c => !(c = '*'))
    if g1.isEmpty then none else
    match expectLit starStar (s1.dropWhile (fun c => !(c = '*'))) with
    | none => none
    | some s2 =>
      tryDesc (countWhile inW s2) fun k1 =>
        let s3 := s2.drop k1
        tryDesc (countWhile notBsl s3) fun k2 =>
          match s3.drop k2 with
          | '$' :: s4 =>
            tryDescPos (countWhile notBsl s4) fun k3 =>
              let g2 := s3.take (k2 + 1 + k3)
              let s5 := s4.drop k3
              tryDesc (countWhile inW s5) fun k4 =>
                match tryAlts typeAlts (s5.drop k4) with
                | some g => some ((g1, g2, g.1, g.2.1), g.2.2)
                | none => none
          | _ => none

/-- `re.findall` over the block pattern: leftmost matches, resuming after
each match's end. The fuel (instantiated with the input length) suffices
because every match consumes at least one character. -/
def findallBlocks : Nat → List Char → List (List Char × List Char × List Char × List Char)
  | 0, _ => []
  | _ + 1, [] => []
  | fuel + 1, c :: t =>
    match matchBlockAt (c :: t) with
    | some g => g.1 :: findallBlocks fuel g.2
    | none => findallBlocks fuel t

/-- Deduplication by `model_id`, first occurrence wins (the `seen_ids`
loop of the source). -/
def dedupById : List FireworksModel → List (List Char) → List FireworksModel
  | [], _ => []
  | m :: t, seen =>
    if seen.contains m.model_id then dedupById t seen
    else m :: dedupById t (m.model_id :: seen)

/-- `parse_firecrawl_markdown`: run the block regex, build a record from
each match (defaulting the type to "LLM" when the optional group is empty
and dropping blocks whose URL yields no identifier), then deduplicate. -/
def parse_firecrawl_markdown (markdown : List Char) : List FireworksModel :=
  let ms := findallBlocks (markdown.length + 1) markdown
  let models := ms.filterMap fun g =>
    let name := pyStrip g.1
    let pricing_text := pyStrip g.2.1
    let model_type := if g.2.2.1.isEmpty then ("LLM").data else pyStrip g.2.2.1
    let url := pyStrip g.2.2.2
    let model_id := extract_model_id_from_url url
    if model_id.isEmpty then none
    else
      let r := parse_pricing pricing_text
      some (FireworksModel.mk name model_id r.1 r.2.1 r.2.2.1 r.2.2.2 model_type)
  dedupById models []

/- ---------------------------------------------------------------------- -/
/- agent/compare.py                                                        -/
/- ---------------------------------------------------------------------- -/

def fwPre : List Char := ("fireworks_ai/").data

/-- `get_fireworks_models_from_litellm`: the LiteLLM document is modelled
by its top-level keys paired with values the function never inspects. The
Python `set` is modelled as a duplicate-free list in key order. -/
def get_fireworks_models_from_litellm {α : Type} (litellm_data : List (List Char × α)) :
    List (List Char) :=
  litellm_data.foldl
    (fun acc kv =>
      if fwPre.isPrefixOf kv.1 then
        let model_id := strReplace fwPre [] kv.1
        if acc.contains model_id then acc else acc ++ [model_id]
      else acc)
    []

/-- `compare_models`: a scraped record is kept (reported missing) when none
of the five identifier variations occurs among the reference ids. -/
def compare_models {α : Type} (scraped_models : List FireworksModel)
    (litellm_data : List (List Char × α)) : List FireworksModel :=
  let existing_ids := get_fireworks_models_from_litellm litellm_data
  scraped_models.filter fun model =>
    let variations :=
      [model.model_id,
       strReplace (("-").data) (("_").data) model.model_id,
       strReplace (("_").data) (("-").data) model.model_id,
       strReplace ((" ").data) (("-").data) (lowerStr model.name),
       strReplace ((" ").data) (("_").data) (lowerStr model.name)]
    !(variations.any fun v => existing_ids.contains v)

/- ---------------------------------------------------------------------- -/
/- agent/github_pr.py : append_models_to_json                              -/
/- ---------------------------------------------------------------------- -/

/-- Result of `append_models_to_json`: the returned text, or the
`json.loads` validation exception. -/
inductive PatchResult where
  | ok (content : List Char)
  | error (msg : List Char)
deriving DecidableEq

def fwKeyPre : List Char := ("fireworks_ai/accounts/fireworks/models/").data

/-- Python dict assignment: overwrite in place, append new keys at the
end. -/
def dictInsert (k : List Char) (v : LitellmEntry) :
    List (List Char × LitellmEntry) → List (List Char × LitellmEntry)
  | [] => [(k, v)]
  | kv :: t => if kv.1 = k then (k, v) :: t else kv :: dictInsert k v t

/-- The `new_entries` dict of `append_models_to_json`. -/
def buildNewEntries (models : List FireworksModel) : List (List Char × LitellmEntry) :=
  models.foldl (fun d m => dictInsert (fwKeyPre ++ m.model_id) m.to_litellm_format d) []

/-- `json.dumps` string escaping; the inputs produced by this system
contain none of the escaped characters. -/
def escCh (c : Char) : List Char :=
  if c = '"' then '\\' :: '"' :: []
  else if c = '\\' then '\\' :: '\\' :: []
  else if c = '\n' then '\\' :: 'n' :: []
  else if c = '\t' then '\\' :: 't' :: []
  else if c = '\r' then '\\' :: 'r' :: []
  else [c]

def jsonEscape (l : List Char) : List Char := l.foldr (fun c acc => escCh c ++ acc) []

def quoteStr (l : List Char) : List Char := '"' :: (jsonEscape l ++ '"' :: [])

def ind4 : List Char := ("    ").data
def ind8 : List Char := ("        ").data

/-- One `"key": value` line of a nested entry at indent 8. -/
def keyLine (k v : List Char) : List Char := ind8 ++ quoteStr k ++ (": ").data ++ v

/-- `json.dumps(entry, indent=4)` for one converted model at nesting depth
1: keys in the insertion order of `to_litellm_format`. -/
def dumpEntry (e : LitellmEntry) : List Char :=
  ("\x7b\n").data
  ++ keyLine (("max_tokens").data) (renderNat e.max_tokens) ++ (",\n").data
  ++ keyLine (("max_input_tokens").data) (renderNat e.max_input_tokens) ++ (",\n").data
  ++ keyLine (("max_output_tokens").data) (renderNat e.max_output_tokens) ++ (",\n").data
  ++ keyLine (("input_cost_per_token").data) (renderCost e.input_cost_per_token) ++ (",\n").data
  ++ keyLine (("output_cost_per_token").data) (renderCost e.output_cost_per_token) ++ (",\n").data
  ++ keyLine (("litellm_provider").data) (quoteStr e.litellm_provider) ++ (",\n").data
  ++ keyLine (("mode").data) (quoteStr e.mode) ++ ("\n    \x7d").data

/-- Lines joined by the `,\n` separator `json.dumps(..., indent=4)` uses. -/
def joinLines : List (List Char) → List Char
  | [] => []
  | [l] => l
  | l :: l2 :: ls => l ++ ',' :: '\n' :: joinLines (l2 :: ls)

/-- `json.dumps(new_entries, indent=4)`. -/
def dumpsNewEntries (entries : List (List Char × LitellmEntry)) : List Char :=
  match entries with
  | [] => ("\x7b\x7d").data
  | _ =>
    ("\x7b\n").data
    ++ joinLines (entries.map fun kv => ind4 ++ quoteStr kv.1 ++ (": ").data ++ dumpEntry kv.2)
    ++ ("\n\x7d").data

/-- `json.dumps(new_entries, indent=4)[1:-1]`. -/
def newEntriesText (models : List FireworksModel) : List Char :=
  ((dumpsNewEntries (buildNewEntries models)).drop 1).dropLast

/-- `original_content[:original_content.rfind("\x7d")]`. Python `rfind`
yields `-1` when the character is absent, and `s[:-1]` then drops the last
character. -/
def upToLastBrace (l : List Char) : List Char :=
  match l.reverse.findIdx? (fun c => c = '\x7d') with
  | some i => l.take (l.length - 1 - i)
  | none => l.dropLast

/-- `content_before.endswith("\x7d")`. -/
def endsWithBrace (l : List Char) : Bool := l.getLast? = some '\x7d'

/-- The `json.loads` exception raised by the final validation, modelled as
a fixed message. -/
def jsonErrMsg : List Char := ("updated content is not valid JSON").data

/-- `append_models_to_json`. -/
def append_models_to_json (models : List FireworksModel) (original_content : List Char) :
    PatchResult :=
  let new_entries_str := newEntriesText models
  let content_before := trimTrail (upToLastBrace original_content)
  let updated_content :=
    if endsWithBrace content_before then
      content_before ++ ',' :: (new_entries_str ++ '\n' :: '\x7d' :: [])
    else
      content_before ++ (new_entries_str ++ '\n' :: '\x7d' :: [])
  if jsonChk updated_content then PatchResult.ok updated_content
  else PatchResult.error jsonErrMsg

/- ---------------------------------------------------------------------- -/
/- server.py : state, run_agent, trigger_agent, get_status                 -/
/- ---------------------------------------------------------------------- -/

/-- The `RunResult` pydantic model; the ISO timestamp string is modelled
as an abstract clock value. -/
structure RunResult where
  success : Bool
  message : List Char
  scraped_models : Nat
  missing_models : Nat
  pr_url : Option (List Char)
  timestamp : Nat
deriving DecidableEq

/-- The module-global `AgentState`. -/
structure AgentState where
  last_run : Option Nat
  last_result : Option RunResult
  is_running : Bool
  next_scheduled_run : Option Nat
deriving DecidableEq

/-- The `StatusResponse` pydantic model. -/
structure StatusResponse where
  status : List Char
  is_running : Bool
  last_run : Option Nat
  last_result : Option RunResult
  next_scheduled_run : Option Nat
  schedule_interval_hours : Nat
deriving DecidableEq

/-- A FastAPI `HTTPException`. -/
structure HTTPErrorResp where
  status_code : Nat
  detail : List Char
deriving DecidableEq

/-- Outcome of `scrape_fireworks_models()` (network collaborator):
either the exception text or the scraped records. -/
inductive ScrapeOutcome where
  | fail (msg : List Char)
  | ok (models : List FireworksModel)
deriving DecidableEq

/-- Outcome of `fetch_litellm_raw()`. This function is imported by
`server.py`/`main.py` but absent from the sources given; modelled from the
spec: the reference-dataset fetch returns both the untouched raw text and
the parsed structure (its top-level keys) from the same HTTP GET, or
fails. -/
inductive FetchOutcome where
  | fail (msg : List Char)
  | ok (raw : List Char) (keys : List (List Char × Unit))
deriving DecidableEq

/-- Outcome of the GitHub submission calls in `create_pull_request`. -/
inductive GhResult where
  | fail (msg : List Char)
  | ok (url : List Char)
deriving DecidableEq

/-- The external world one run interacts with: configuration presence,
the two fetches, the GitHub API, and the clock. -/
structure Env where
  firecrawl_key : Bool
  github_token : Bool
  scrape : ScrapeOutcome
  fetch : FetchOutcome
  gh_setup : Option (List Char)
  gh_submit : GhResult
  now : Nat
deriving DecidableEq

def busyMsg : List Char := ("Agent is already running").data
def busyDetail : List Char := ("Agent is already running. Check /status for progress.").data
def firecrawlMissingMsg : List Char := ("FIRECRAWL_API_KEY not set").data
def githubMissingMsg : List Char := ("GITHUB_TOKEN not set").data
def githubTokenReqMsg : List Char := ("GITHUB_TOKEN environment variable is required").data
def noModelsMsg : List Char := ("No models scraped from Fireworks AI").data
def allExistMsg : List Char := ("All Fireworks models already exist in LiteLLM").data
def agentFailedPre : List Char := ("Agent failed: ").data

def createdPrMsg (n : Nat) : List Char :=
  ("Created PR with ").data ++ renderNat n ++ (" new models").data

/-- `create_pull_request` of `agent/github_pr.py`: token check, branch
creation (network), the append-only splice, then file update and PR
creation (network). Any exception surfaces as a failure message. -/
def create_pull_request (env : Env) (missing_models : List FireworksModel)
    (original_json_content : List Char) : GhResult :=
  if !env.github_token then GhResult.fail githubTokenReqMsg
  else
    match env.gh_setup with
    | some msg => GhResult.fail msg
    | none =>
      match append_models_to_json missing_models original_json_content with
      | PatchResult.error msg => GhResult.fail msg
      | PatchResult.ok _ => env.gh_submit

/-- The `except Exception` arm of `run_agent`: record the failure in the
shared state; the `finally` clears the running flag. -/
def failResult (env : Env) (s : AgentState) (msg : List Char) : AgentState × RunResult :=
  let r := RunResult.mk false (agentFailedPre ++ msg) 0 0 none env.now
  (AgentState.mk (some env.now) (some r) false s.next_scheduled_run, r)

/-- `run_agent` of `server.py`: the guard, the three pipeline steps, the
`except` arm and the `finally` arm, as a function of the external
environment and the shared state. -/
def run_agent (env : Env) (s : AgentState) : AgentState × RunResult :=
  if s.is_running then
    (s, RunResult.mk false busyMsg 0 0 none env.now)
  else
    if !env.firecrawl_key then failResult env s firecrawlMissingMsg
    else if !env.github_token then failResult env s githubMissingMsg
    else
      match env.scrape with
      | ScrapeOutcome.fail msg => failResult env s msg
      | ScrapeOutcome.ok scraped_models =>
        if scraped_models.isEmpty then
          (AgentState.mk s.last_run s.last_result false s.next_scheduled_run,
           RunResult.mk true noModelsMsg 0 0 none env.now)
        else
          match env.fetch with
          | FetchOutcome.fail msg => failResult env s msg
          | FetchOutcome.ok raw_content litellm_data =>
            let missing_models := compare_models scraped_models litellm_data
            if missing_models.isEmpty then
              let r := RunResult.mk true allExistMsg scraped_models.length 0 none env.now
              (AgentState.mk (some env.now) (some r) false s.next_scheduled_run, r)
            else
              match create_pull_request env missing_models raw_content with
              | GhResult.fail msg => failResult env s msg
              | GhResult.ok pr_url =>
                let r := RunResult.mk true (createdPrMsg missing_models.length)
                  scraped_models.length missing_models.length (some pr_url) env.now
                (AgentState.mk (some env.now) (some r) false s.next_scheduled_run, r)

/-- `get_status` of `server.py`. -/
def get_status (s : AgentState) : StatusResponse :=
  StatusResponse.mk (if s.is_running then ("running").data else ("idle").data)
    s.is_running s.last_run s.last_result s.next_scheduled_run 24

/-- Result of the `/trigger` endpoint: an HTTP error response or a run. -/
inductive TriggerResult where
  | httpError (e : HTTPErrorResp)
  | ok (st : AgentState) (r : RunResult)
deriving DecidableEq

/-- `trigger_agent` of `server.py`: reject with HTTP 409 while a run is in
progress, otherwise run the pipeline. -/
def trigger_agent (env : Env) (s : AgentState) : TriggerResult :=
  if s.is_running then TriggerResult.httpError (HTTPErrorResp.mk 409 busyDetail)
  else
    let p := run_agent env s
    TriggerResult.ok p.1 p.2

/- ---------------------------------------------------------------------- -/
/- Spec-side forms and concrete instances used by the claims               -/
/- ---------------------------------------------------------------------- -/

/-- The literal region between the input group and the output price. -/
def lit1 : List Char := ("/M Input • $").data

/-- The literal region between the output group and the context number. -/
def lit2 : List Char := ("/M Output • ").data

/-- A well-formed dual-price fragment `$A/M Input • $B/M Output • N Context`
exactly as written in the spec's testable property. -/
def mkDualFragment (A B N : List Char) : List Char :=
  '$' :: (A ++ (slashM ++ (' ' :: (inputLit ++ (' ' :: '•' :: ' ' :: '$' ::
    (B ++ (slashM ++ (' ' :: (outputLit ++ (' ' :: '•' :: ' ' ::
      (N ++ (' ' :: ctxLit))))))))))))

/-- Well-formedness of a price numeral: what Python `float` accepts among
strings drawn from the class `[0-9.]+`. -/
def validNumeral (l : List Char) : Prop :=
  l ≠ [] ∧ (∀ c ∈ l, isNumCh c = true) ∧ l.count '.' ≤ 1 ∧ l.any isDigitCh = true

/-- A reference document in the canonical shape of the LiteLLM pricing
file: one 4-space-indented `"key": value` entry per line, comma-separated,
inside a brace pair. -/
def renderRefDoc (entries : List (List Char × List Char)) : List Char :=
  '\x7b' :: '\n' ::
    (joinLines (entries.map fun kv => ind4 ++ quoteStr kv.1 ++ (": ").data ++ kv.2)
      ++ ('\n' :: '\x7d' :: []))

/-- Extract the content of a successful patch (used only to name concrete
outputs in witnesses). -/
def patchContent : PatchResult → List Char
  | PatchResult.ok s => s
  | PatchResult.error _ => []

/-- A scraped record with no parsed prices (zero-valued derived prices). -/
def m0 : FireworksModel :=
  FireworksModel.mk (("Test Model").data) (("test-model").data) none none none none (("LLM").data)

/-- The scraped record of the diff-normalization example: bare identifier
`Llama-V3`, display name `Llama V3`. -/
def mLlamaV3 : FireworksModel :=
  FireworksModel.mk (("Llama V3").data) (("Llama-V3").data) none none none none (("LLM").data)

/-- A LiteLLM document whose only key is the path-style reference key of
the diff-normalization example. -/
def litellmLlama : List (List Char × Unit) :=
  [((("fireworks_ai/accounts/fireworks/models/llama-v3").data), ())]

/-- `\x7b\x7d` — an empty JSON object document. -/
def origEmpty : List Char := ("\x7b\x7d").data

/-- A document with one object-valued entry and a newline before the final
brace. -/
def docOneObj : List Char := ("\x7b\n    \"a\": \x7b\x7d\n\x7d").data

/-- A document with one number-valued entry. -/
def docOneNum : List Char := ("\x7b\n    \"a\": 1\n\x7d").data

/-- Scraped markdown (with the literal backslash-n sequences Firecrawl
emits) holding one block: display name `Acme Embed`, category label
`Vision`, identifier `acme-embed`. -/
def mdC7 : List Char :=
  ("**Acme Embed**\\n\\n$0.1/M Tokens\\n\\nVision](https://fireworks.ai/models/fireworks/acme-embed)").data

/-- The record the extractor emits for `mdC7`. -/
def recC7 : FireworksModel :=
  FireworksModel.mk (("Acme Embed").data) (("acme-embed").data) none none (some (mkRat 1 10))
    none (("Vision").data)

/-- Scraped markdown holding one block: display name `Fast Reranker`,
category label `LLM`, identifier `fast-reranker`. -/
def mdC7w : List Char :=
  ("**Fast Reranker**\\n\\n$1/M Tokens\\n\\nLLM](https://fireworks.ai/models/fireworks/fast-reranker)").data

/-- The record the extractor emits for `mdC7w`. -/
def recC7w : FireworksModel :=
  FireworksModel.mk (("Fast Reranker").data) (("fast-reranker").data) none none
    (some (mkRat 1 1)) none (("LLM").data)

/-- A record carrying both an embedding keyword and a rerank keyword. -/
def mEmbedRerank : FireworksModel :=
  FireworksModel.mk (("Embed Reranker").data) (("embed-rerank-v1").data) none none none none
    (("Embedding").data)

/-- A record carrying an embedding keyword and a structural `Vision`
label. -/
def mEmbedVision : FireworksModel :=
  FireworksModel.mk (("Acme Embedder").data) (("acme-x1").data) none none none none
    (("Vision").data)

/-- Canonical reference entries used by the patch-correctness witness. -/
def entriesW : List (List Char × List Char) :=
  [((("a").data), (("\x7b\x7d").data))]

/-- Concrete splice outputs named for the witnesses. -/
def outOneObj : List Char := patchContent (append_models_to_json [m0] docOneObj)

def outRefW : List Char := patchContent (append_models_to_json [m0] (renderRefDoc entriesW))

/-- An environment in which every collaborator succeeds and scraping
yields one record that is missing from the reference data. -/
def envOk : Env :=
  Env.mk true true (ScrapeOutcome.ok [m0])
    (FetchOutcome.ok origEmpty []) none (GhResult.ok (("https://example.invalid/pr/1").data)) 5

/-- An environment whose scrape step raises. -/
def envScrapeFail : Env :=
  Env.mk true true (ScrapeOutcome.fail (("boom").data)) (FetchOutcome.fail []) none
    (GhResult.fail []) 6

/-- An environment whose scrape step returns zero records. -/
def envZero : Env :=
  Env.mk true true (ScrapeOutcome.ok []) (FetchOutcome.fail []) none (GhResult.fail []) 9

/-- An idle agent state carrying a previous run's snapshot. -/
def sIdle : AgentState :=
  AgentState.mk (some 2)
    (some (RunResult.mk true allExistMsg 3 0 none 2)) false (some 11)

/-- A state in which a run is marked in progress. -/
def sRunning : AgentState :=
  AgentState.mk (some 3) none true (some 7)

/- ---------------------------------------------------------------------- -/
/- Shared lemmas                                                           -/
/- ---------------------------------------------------------------------- -/

theorem takeWhile_all_append (p : Char → Bool) (l : List Char)
    (h : ∀ c ∈ l, p c = true) :
    ∀ r, (l ++ r).takeWhile p = l ++ r.takeWhile p := by
  induction l with
  | nil => simp
  | cons c t ih =>
    intro r
    simp only [List.cons_append, List.takeWhile_cons, h c (by simp)]
    simp [ih (fun d hd => h d (by simp [hd])) r]

theorem dropWhile_all_append (p : Char → Bool) (l : List Char)
    (h : ∀ c ∈ l, p c = true) :
    ∀ r, (l ++ r).dropWhile p = r.dropWhile p := by
  induction l with
  | nil => simp
  | cons c t ih =>
    intro r
    simp only [List.cons_append, List.dropWhile_cons, h c (by simp)]
    simp [ih (fun d hd => h d (by simp [hd])) r]

theorem expectLit_append (l r : List Char) : expectLit l (l ++ r) = some r := by
  induction l with
  | nil => rfl
  | cons c t ih => simp [expectLit, ih]

theorem suffix_append_split {t xs ys : List Char} (h : t <:+ xs ++ ys) :
    t <:+ ys ∨ ∃ u, u <:+ xs ∧ u ≠ [] ∧ t = u ++ ys := by
  induction xs with
  | nil => exact Or.inl (by simpa using h)
  | cons c xs' ih =>
    rcases List.suffix_cons_iff.mp h with h1 | h2
    · exact Or.inr ⟨c :: xs', List.suffix_refl _, by simp, by simpa using h1⟩
    · rcases ih h2 with h3 | ⟨u, hu1, hu2, hu3⟩
      · exact Or.inl h3
      · exact Or.inr ⟨u, hu1.trans (List.suffix_cons c xs'), hu2, hu3⟩

theorem trimTrail_isPrefix (l : List Char) : trimTrail l <+: l := by
  have h : l.reverse.dropWhile isWs <:+ l.reverse := List.dropWhile_suffix isWs
  have := List.reverse_prefix.mpr h
  simpa [trimTrail] using this


theorem getLast?_append_right (xs : List Char) {ys : List Char} {c : Char}
    (h : ys.getLast? = some c) : (xs ++ ys).getLast? = some c := by
  cases ys with
  | nil => simp at h
  | cons y t => rw [List.getLast?_append_cons]; exact h

theorem trimTrail_append_ws (xs : List Char) (c : Char) (h : isWs c = true) :
    trimTrail (xs ++ [c]) = trimTrail xs := by
  simp [trimTrail, List.dropWhile_cons, h]

theorem trimTrail_of_getLast {l : List Char} {c : Char} (h : l.getLast? = some c)
    (hc : isWs c = false) : trimTrail l = l := by
  have hh : l.reverse.head? = some c := by
    rw [List.head?_reverse]; exact h
  cases hr : l.reverse with
  | nil => simp [hr] at hh
  | cons d t =>
    rw [hr] at hh
    have hd : d = c := by simpa using hh
    have h2 : (d :: t).dropWhile isWs = d :: t := by
      simp [List.dropWhile_cons, hd, hc]
    calc trimTrail l = ((d :: t).dropWhile isWs).reverse := by rw [trimTrail, hr]
    _ = (d :: t).reverse := by rw [h2]
    _ = l := by rw [← hr, List.reverse_reverse]

theorem upToLastBrace_append_brace (xs : List Char) :
    upToLastBrace (xs ++ ['\x7d']) = xs := by
  unfold upToLastBrace
  rw [List.reverse_append]
  norm_num [List.findIdx?_cons]

theorem joinLines_getLast {lines : List (List Char)} {c : Char}
    (h : ∀ l ∈ lines, l.getLast? = some c) (hne : lines ≠ []) :
    (joinLines lines).getLast? = some c := by
  induction lines with
  | nil => exact absurd rfl hne
  | cons l ls ih =>
    cases ls with
    | nil => simpa [joinLines] using h l (by simp)
    | cons l2 ls' =>
      rw [joinLines]
      have hJ := ih (fun x hx => h x (by simp [hx])) (by simp)
      have hne2 : joinLines (l2 :: ls') ≠ [] := by
        intro hE
        rw [hE] at hJ
        simp at hJ
      calc (l ++ ',' :: '\n' :: joinLines (l2 :: ls')).getLast?
          = (',' :: '\n' :: joinLines (l2 :: ls')).getLast? :=
            List.getLast?_append_cons l ',' ('\n' :: joinLines (l2 :: ls'))
      _ = (joinLines (l2 :: ls')).getLast? :=
            List.getLast?_append_of_ne_nil ([',', '\n']) hne2
      _ = some c := hJ

theorem append_ok_eq {models : List FireworksModel} {orig s : List Char}
    (h : append_models_to_json models orig = PatchResult.ok s) :
    s = (if endsWithBrace (trimTrail (upToLastBrace orig)) then
          trimTrail (upToLastBrace orig) ++ ',' :: (newEntriesText models ++ '\n' :: '\x7d' :: [])
         else
          trimTrail (upToLastBrace orig) ++ (newEntriesText models ++ '\n' :: '\x7d' :: []))
      ∧ jsonChk s = true := by
  unfold append_models_to_json at h
  dsimp only at h
  split at h
  case isTrue hbr =>
    split at h
    case isTrue hchk =>
      injection h with h'
      subst h'
      exact ⟨by simp [hbr], hchk⟩
    case isFalse hchk => exact absurd h (by simp)
  case isFalse hbr =>
    split at h
    case isTrue hchk =>
      injection h with h'
      subst h'
      exact ⟨by simp [hbr], hchk⟩
    case isFalse hchk => exact absurd h (by simp)

/-- The keyword-override ladder of `to_litellm_format`: rerank beats
embedding beats speech ("whisper" is checked against the name, "asr"
against the identifier), each beating the structural category. -/
theorem mode_priority (m : FireworksModel) :
    ((containsSub (("rerank").data) (lowerStr m.name)
        || containsSub (("rerank").data) (lowerStr m.model_id)) = true →
      m.to_litellm_format.mode = ("rerank").data) ∧
    ((containsSub (("rerank").data) (lowerStr m.name)
        || containsSub (("rerank").data) (lowerStr m.model_id)) = false →
     (containsSub (("embed").data) (lowerStr m.name)
        || containsSub (("embed").data) (lowerStr m.model_id)) = true →
      m.to_litellm_format.mode = ("embedding").data) ∧
    ((containsSub (("rerank").data) (lowerStr m.name)
        || containsSub (("rerank").data) (lowerStr m.model_id)) = false →
     (containsSub (("embed").data) (lowerStr m.name)
        || containsSub (("embed").data) (lowerStr m.model_id)) = false →
     (containsSub (("whisper").data) (lowerStr m.name)
        || containsSub (("asr").data) (lowerStr m.model_id)) = true →
      m.to_litellm_format.mode = ("audio_transcription").data) := by
  refine ⟨?_, ?_, ?_⟩
  · intro h1
    simp [FireworksModel.to_litellm_format, h1]
  · intro h1 h2
    simp [FireworksModel.to_litellm_format, h1, h2]
  · intro h1 h2 h3
    simp [FireworksModel.to_litellm_format, h1, h2, h3]

/- ---------------------------------------------------------------------- -/
/- Claim theorems                                                          -/
/- ---------------------------------------------------------------------- -/

/-- C1: evaluation at the failing input. The scraped record with bare
identifier `Llama-V3` (display name `Llama V3`) is reported *missing*
against the reference key
`fireworks_ai/accounts/fireworks/models/llama-v3`: `compare_models` strips
only the literal `fireworks_ai/` prefix, never the
`accounts/fireworks/models/` path, and compares the identifier variations
case-sensitively, so the normalization the spec mandates (and that the
repository's own PR builder would need, since it writes keys in exactly
this path form) does not happen. -/
theorem compare_models_llama_missing :
    compare_models [mLlamaV3] litellmLlama = [mLlamaV3] := by decide

/-- C2 counterexample: for the original document
`\x7b\n    "a": \x7b\x7d\n\x7d` and one missing record, the output does
not begin with the original content up to the final closing brace: the
source `rstrip`s that prefix, dropping the newline before the inserted
comma, so old whitespace is normalized away. -/
theorem append_head_counterexample :
    append_models_to_json [m0] docOneObj = PatchResult.ok outOneObj ∧
    (upToLastBrace docOneObj).isPrefixOf outOneObj = false := by decide

/-- C2 (amended): for every original document and non-empty record list,
a successful splice output begins with the original content up to the
final closing brace *with trailing whitespace stripped*, and that
preserved head is itself an unchanged prefix of the original bytes before
the brace. -/
theorem append_preserves_trimmed_head (models : List FireworksModel) (orig s : List Char)
    (hne : models ≠ []) (h : append_models_to_json models orig = PatchResult.ok s) :
    trimTrail (upToLastBrace orig) <+: s ∧
    trimTrail (upToLastBrace orig) <+: upToLastBrace orig := by
  obtain ⟨hs, _⟩ := append_ok_eq h
  refine ⟨?_, trimTrail_isPrefix _⟩
  rw [hs]
  split
  · exact List.prefix_append _ _
  · exact List.prefix_append _ _

/-- Witness for the amended C2 at the concrete document `docOneObj`. -/
theorem append_preserves_trimmed_head_witness :
    trimTrail (upToLastBrace docOneObj) <+: outOneObj ∧
    trimTrail (upToLastBrace docOneObj) <+: upToLastBrace docOneObj :=
  append_preserves_trimmed_head [m0] docOneObj outOneObj (by simp) (by decide)

/-- C3 counterexample: appending zero records to the document `\x7b\x7d`
returns `\x7b\n\x7d`, which is not byte-identical to the original, so the
claimed no-op fails. -/
theorem append_empty_not_noop :
    append_models_to_json [] origEmpty = PatchResult.ok ('\x7b' :: '\n' :: '\x7d' :: []) ∧
    ¬('\x7b' :: '\n' :: '\x7d' :: []) = origEmpty := by decide

/-- C3 (amended): appending zero records is not a no-op. When the trimmed
content before the final brace does not end in a closing brace, the result
is that trimmed content followed by `\n` and the final brace (so
`\x7b\x7d` becomes `\x7b\n\x7d`); when it does end in one — any document
whose last entry value is an object, such as `docOneObj` — the splice
introduces a trailing comma and the JSON validation raises. -/
theorem append_empty_behavior (orig s : List Char)
    (h : append_models_to_json [] orig = PatchResult.ok s)
    (hbr : endsWithBrace (trimTrail (upToLastBrace orig)) = false) :
    s = trimTrail (upToLastBrace orig) ++ '\n' :: '\x7d' :: [] ∧
    append_models_to_json [] docOneObj = PatchResult.error jsonErrMsg := by
  obtain ⟨hs, _⟩ := append_ok_eq h
  rw [hbr] at hs
  refine ⟨?_, by decide⟩
  rw [hs]
  simp
  decide

/-- Witness for the amended C3 at the concrete document `\x7b\x7d`. -/
theorem append_empty_behavior_witness :
    ('\x7b' :: '\n' :: '\x7d' :: []) = trimTrail (upToLastBrace origEmpty) ++ '\n' :: '\x7d' :: [] ∧
    append_models_to_json [] docOneObj = PatchResult.error jsonErrMsg :=
  append_empty_behavior origEmpty ('\x7b' :: '\n' :: '\x7d' :: []) (by decide) (by decide)

/-- C4 counterexample: the document `\x7b\n    "a": 1\n\x7d` has one
existing entry, yet the code inserts no separating comma (its test is
whether the trimmed prefix ends in `\x7d`, and the value `1` does not),
the spliced text does not parse, and the call raises instead of returning
parsable data. -/
theorem append_comma_counterexample :
    append_models_to_json [m0] docOneNum = PatchResult.error jsonErrMsg := by decide

/-- C4 (amended): for reference documents in the canonical shape — every
top-level value an object — a successful splice inserts exactly one
separating comma if and only if the document has at least one entry (zero
entries means no leading comma), and the returned text passes the JSON
validation. For a document whose last value is not an object the comma
test misfires and validation raises (see the counterexample). -/
theorem append_comma_iff_entries (entries : List (List Char × List Char))
    (models : List FireworksModel) (s : List Char)
    (hval : ∀ kv ∈ entries, kv.2.getLast? = some '\x7d')
    (hm : models ≠ [])
    (h : append_models_to_json models (renderRefDoc entries) = PatchResult.ok s) :
    (entries = [] →
      s = trimTrail (upToLastBrace (renderRefDoc entries))
          ++ (newEntriesText models ++ '\n' :: '\x7d' :: [])) ∧
    (entries ≠ [] →
      s = trimTrail (upToLastBrace (renderRefDoc entries))
          ++ ',' :: (newEntriesText models ++ '\n' :: '\x7d' :: [])) ∧
    jsonChk s = true := by
  obtain ⟨hs, hchk⟩ := append_ok_eq h
  have hdoc : renderRefDoc entries =
      ('\x7b' :: '\n' ::
        ((joinLines (entries.map fun kv => ind4 ++ quoteStr kv.1 ++ (": ").data ++ kv.2))
          ++ ['\n'])) ++ ['\x7d'] := by
    simp [renderRefDoc]
  have hup : upToLastBrace (renderRefDoc entries) =
      '\x7b' :: '\n' ::
        ((joinLines (entries.map fun kv => ind4 ++ quoteStr kv.1 ++ (": ").data ++ kv.2))
          ++ ['\n']) := by
    rw [hdoc, upToLastBrace_append_brace]
  cases entries with
  | nil =>
    have hcb : trimTrail (upToLastBrace (renderRefDoc [])) = ['\x7b'] := by
      rw [hup]; decide
    have hbr : endsWithBrace (trimTrail (upToLastBrace (renderRefDoc []))) = false := by
      rw [hcb]; decide
    rw [hbr] at hs
    exact ⟨fun _ => by simpa using hs, fun hne => absurd rfl hne, hchk⟩
  | cons e es =>
    have hlast : (joinLines ((e :: es).map fun kv =>
        ind4 ++ quoteStr kv.1 ++ (": ").data ++ kv.2)).getLast? = some '\x7d' := by
      apply joinLines_getLast
      · intro l hl
        simp only [List.mem_map] at hl
        obtain ⟨kv, hkv, rfl⟩ := hl
        exact getLast?_append_right _ (hval kv hkv)
      · simp
    have hcb : trimTrail (upToLastBrace (renderRefDoc (e :: es))) =
        '\x7b' :: '\n' ::
          (joinLines ((e :: es).map fun kv => ind4 ++ quoteStr kv.1 ++ (": ").data ++ kv.2)) := by
      rw [hup]
      rw [show ('\x7b' :: '\n' ::
          ((joinLines ((e :: es).map fun kv => ind4 ++ quoteStr kv.1 ++ (": ").data ++ kv.2))
            ++ ['\n'])) =
          ('\x7b' :: '\n' ::
            (joinLines ((e :: es).map fun kv => ind4 ++ quoteStr kv.1 ++ (": ").data ++ kv.2)))
          ++ ['\n'] by simp]
      rw [trimTrail_append_ws _ _ (by decide)]
      exact trimTrail_of_getLast
        (getLast?_append_right ['\x7b', '\n'] hlast) (by decide)
    have hbr : endsWithBrace (trimTrail (upToLastBrace (renderRefDoc (e :: es)))) = true := by
      rw [hcb]
      unfold endsWithBrace
      exact decide_eq_true (getLast?_append_right ['\x7b', '\n'] hlast)
    rw [hbr] at hs
    exact ⟨fun hE => by simp at hE, fun _ => hs, hchk⟩

/-- Witness for the amended C4 at a one-entry canonical document. -/
theorem append_comma_iff_entries_witness :
    (entriesW = [] →
      outRefW = trimTrail (upToLastBrace (renderRefDoc entriesW))
          ++ (newEntriesText [m0] ++ '\n' :: '\x7d' :: [])) ∧
    (entriesW ≠ [] →
      outRefW = trimTrail (upToLastBrace (renderRefDoc entriesW))
          ++ ',' :: (newEntriesText [m0] ++ '\n' :: '\x7d' :: [])) ∧
    jsonChk outRefW = true :=
  append_comma_iff_entries entriesW [m0] outRefW (by decide) (by simp) (by decide)

/-- C5 counterexample: with the running flag set, the trigger endpoint
raises an `HTTPException` with status 409 — an HTTP error-class status
(`400 ≤ 409`) — and the internal guard returns a result whose `success`
field is `false`; the rejection therefore *is* surfaced as an
error/failure, contrary to the claim. -/
theorem trigger_busy_counterexample :
    trigger_agent envOk sRunning = TriggerResult.httpError (HTTPErrorResp.mk 409 busyDetail) ∧
    400 ≤ 409 ∧
    (run_agent envOk sRunning).2.success = false := by decide

/-- C5 (amended): while a run is in progress, a trigger is rejected with
the fixed, distinguishable outcome — HTTP 409 with the busy detail on the
endpoint, a `success = false` result with the busy message internally —
and no second pipeline execution starts: the state is returned unchanged
and the result does not depend on any pipeline collaborator. The
rejection is however signalled as an error (409 / `success = false`), not
as a distinct non-error status. -/
theorem trigger_busy_rejection (env : Env) (s : AgentState) (h : s.is_running = true) :
    trigger_agent env s = TriggerResult.httpError (HTTPErrorResp.mk 409 busyDetail) ∧
    run_agent env s = (s, RunResult.mk false busyMsg 0 0 none env.now) := by
  constructor
  · simp [trigger_agent, h]
  · simp [run_agent, h]

/-- Witness for the amended C5 at a concrete running state. -/
theorem trigger_busy_rejection_witness :
    trigger_agent envScrapeFail sRunning
      = TriggerResult.httpError (HTTPErrorResp.mk 409 busyDetail) ∧
    run_agent envScrapeFail sRunning
      = (sRunning, RunResult.mk false busyMsg 0 0 none envScrapeFail.now) :=
  trigger_busy_rejection envScrapeFail sRunning (by decide)

/-- C8 counterexample: the record `Embed Reranker` contains an embedding
keyword in its name, yet its converted mode is `rerank`, because the
rerank keyword takes priority; the unconditional claim fails. -/
theorem embed_rerank_counterexample :
    containsSub (("embed").data) (lowerStr mEmbedRerank.name) = true ∧
    mEmbedRerank.to_litellm_format.mode = ("rerank").data ∧
    ¬("rerank").data = ("embedding").data := by decide

/-- C8 (amended): every record whose name or identifier contains an
embedding keyword *and no rerank keyword* converts to mode `embedding`,
regardless of the structurally detected category stored on the record. -/
theorem embed_keyword_mode_embedding (m : FireworksModel)
    (hEmb : (containsSub (("embed").data) (lowerStr m.name)
        || containsSub (("embed").data) (lowerStr m.model_id)) = true)
    (hNoRer : (containsSub (("rerank").data) (lowerStr m.name)
        || containsSub (("rerank").data) (lowerStr m.model_id)) = false) :
    m.to_litellm_format.mode = ("embedding").data :=
  (mode_priority m).2.1 hNoRer hEmb

/-- Witness for the amended C8: an embedding-keyword record labelled
`Vision` converts to mode `embedding`. -/
theorem embed_keyword_mode_embedding_witness :
    mEmbedVision.to_litellm_format.mode = ("embedding").data :=
  embed_keyword_mode_embedding mEmbedVision (by decide) (by decide)

/-- C9: an invocation of `run_agent` that begins executing (flag clear on
entry) always terminates with the flag cleared — the `finally` arm runs on
success, zero work, and every exception path alike — while a rejected
invocation (flag already set) returns the state unchanged. -/
theorem run_agent_clears_flag (env : Env) (s : AgentState) :
    (s.is_running = false → (run_agent env s).1.is_running = false) ∧
    (s.is_running = true → (run_agent env s).1 = s) := by
  constructor
  · intro h
    unfold run_agent
    rw [if_neg (by simp [h])]
    repeat' (first | split | dsimp only)
    all_goals rfl
  · intro h
    simp [run_agent, h]

/-- Witness for C9: a failing run clears the flag; a rejected trigger
leaves the running state untouched. -/
theorem run_agent_clears_flag_witness :
    (run_agent envScrapeFail sIdle).1.is_running = false ∧
    (run_agent envOk sRunning).1 = sRunning :=
  ⟨(run_agent_clears_flag envScrapeFail sIdle).1 (by decide),
   (run_agent_clears_flag envOk sRunning).2 (by decide)⟩

/-- C10: a run whose scrape yields zero records returns the successful
zero-work result but does not write `last_run` or `last_result`, so the
status surface keeps reporting the previous run's snapshot. -/
theorem zero_scrape_preserves_snapshot (env : Env) (s : AgentState)
    (hidle : s.is_running = false) (hfc : env.firecrawl_key = true)
    (hgh : env.github_token = true) (hs : env.scrape = ScrapeOutcome.ok []) :
    run_agent env s =
      (AgentState.mk s.last_run s.last_result false s.next_scheduled_run,
       RunResult.mk true noModelsMsg 0 0 none env.now) ∧
    (get_status (run_agent env s).1).last_result = s.last_result ∧
    (get_status (run_agent env s).1).last_run = s.last_run := by
  have hrun : run_agent env s =
      (AgentState.mk s.last_run s.last_result false s.next_scheduled_run,
       RunResult.mk true noModelsMsg 0 0 none env.now) := by
    unfold run_agent
    rw [hs]
    simp [hidle, hfc, hgh]
  exact ⟨hrun, by rw [hrun]; rfl, by rw [hrun]; rfl⟩

/-- Witness for C10 at a concrete previous-run state. -/
theorem zero_scrape_preserves_snapshot_witness :
    run_agent envZero sIdle =
      (AgentState.mk sIdle.last_run sIdle.last_result false sIdle.next_scheduled_run,
       RunResult.mk true noModelsMsg 0 0 none envZero.now) ∧
    (get_status (run_agent envZero sIdle).1).last_result = sIdle.last_result ∧
    (get_status (run_agent envZero sIdle).1).last_run = sIdle.last_run :=
  zero_scrape_preserves_snapshot envZero sIdle (by decide) (by decide) (by decide) (by decide)

/-- C7 counterexample: the extractor emits the `Acme Embed` record (whose
lower-cased name contains the embedding keyword) with the structurally
detected category `Vision` untouched — no keyword override is applied at
extraction, contrary to the claim that emitted records carry the
overridden category. -/
theorem extractor_no_override_counterexample :
    parse_firecrawl_markdown mdC7 = [recC7] ∧
    containsSub (("embed").data) (lowerStr recC7.name) = true ∧
    ¬recC7.model_type = ("Embedding").data := by decide

/-- C7 (amended): extraction leaves the structurally detected category on
the record; the keyword override is applied at price-object conversion
instead: for every record the extractor emits, the converted mode follows
the keyword ladder — rerank over embedding over speech, where `whisper`
is checked against the display name and `asr` against the identifier —
overriding the structural category. -/
theorem extracted_record_mode_priority (md : List Char) (m : FireworksModel)
    (_hmem : m ∈ parse_firecrawl_markdown md) :
    ((containsSub (("rerank").data) (lowerStr m.name)
        || containsSub (("rerank").data) (lowerStr m.model_id)) = true →
      m.to_litellm_format.mode = ("rerank").data) ∧
    ((containsSub (("rerank").data) (lowerStr m.name)
        || containsSub (("rerank").data) (lowerStr m.model_id)) = false →
     (containsSub (("embed").data) (lowerStr m.name)
        || containsSub (("embed").data) (lowerStr m.model_id)) = true →
      m.to_litellm_format.mode = ("embedding").data) ∧
    ((containsSub (("rerank").data) (lowerStr m.name)
        || containsSub (("rerank").data) (lowerStr m.model_id)) = false →
     (containsSub (("embed").data) (lowerStr m.name)
        || containsSub (("embed").data) (lowerStr m.model_id)) = false →
     (containsSub (("whisper").data) (lowerStr m.name)
        || containsSub (("asr").data) (lowerStr m.model_id)) = true →
      m.to_litellm_format.mode = ("audio_transcription").data) :=
  mode_priority m

/-- Witness for the amended C7: the `Fast Reranker` record emitted from
`mdC7w` (structural label `LLM`) converts to mode `rerank`. -/
theorem extracted_record_mode_priority_witness :
    recC7w.to_litellm_format.mode = ("rerank").data :=
  (extracted_record_mode_priority mdC7w recC7w (by decide)).1 (by decide)

theorem matchCtxAt_not_digit {c : Char} (r : List Char) (h : isDigitCh c = false) :
    matchCtxAt (c :: r) = none := by
  unfold matchCtxAt
  simp [List.takeWhile_cons, h]

theorem matchCtxAt_of_head_bad {s : List Char} {c : Char} {t : List Char}
    (hd : s.dropWhile isDigitCh = c :: t) (hws : isWs c = false) (hC : ¬c = 'C') :
    matchCtxAt s = none := by
  have hex : expectLit ctxLit (c :: t) = none := by
    rw [show ctxLit = 'C' :: ("ontext").data from rfl]
    simp only [expectLit]
    rw [if_neg (fun hcc => hC hcc.symm)]
  unfold matchCtxAt
  dsimp only
  by_cases hE : (s.takeWhile isDigitCh).isEmpty = true
  · rw [if_pos hE]
  · rw [if_neg hE, hd, List.dropWhile_cons, if_neg (by simp [hws]), hex]

theorem dropWhile_digits_of_num {u : List Char} (h : ∀ c ∈ u, isNumCh c = true) :
    u.dropWhile isDigitCh = [] ∨ ∃ t, u.dropWhile isDigitCh = '.' :: t := by
  induction u with
  | nil => exact Or.inl rfl
  | cons c t ih =>
    by_cases hc : isDigitCh c = true
    · rw [List.dropWhile_cons, if_pos (by simp [hc])]
      exact ih fun d hd => h d (by simp [hd])
    · have hcnum := h c (by simp)
      have hdot : c = '.' := by
        simp [isNumCh, hc] at hcnum
        exact hcnum
      refine Or.inr ⟨t, ?_⟩
      rw [List.dropWhile_cons, if_neg (by simp [hc]), hdot]

theorem ctxFail_numRun (u r : List Char) (h : ∀ c ∈ u, isNumCh c = true) :
    matchCtxAt (u ++ '/' :: r) = none := by
  rcases dropWhile_digits_of_num h with h0 | ⟨t, ht⟩
  · have hall : ∀ c ∈ u, isDigitCh c = true := by
      intro c hc
      exact List.dropWhile_eq_nil_iff.mp h0 c hc
    have hd : (u ++ '/' :: r).dropWhile isDigitCh = '/' :: r := by
      rw [dropWhile_all_append isDigitCh u hall]
      rw [List.dropWhile_cons, if_neg (by decide)]
    exact matchCtxAt_of_head_bad hd (by decide) (by decide)
  · have hd : (u ++ '/' :: r).dropWhile isDigitCh = '.' :: (t ++ '/' :: r) := by
      conv_lhs => rw [← @List.takeWhile_append_dropWhile _ isDigitCh u, ht]
      rw [List.append_assoc]
      rw [dropWhile_all_append isDigitCh (u.takeWhile isDigitCh)
        (fun c hc => List.mem_takeWhile_imp hc)]
      rw [List.cons_append, List.dropWhile_cons, if_neg (by decide)]
    exact matchCtxAt_of_head_bad hd (by decide) (by decide)

theorem searchCtx_append_of_fail (xs ys : List Char)
    (h : ∀ t, t <:+ xs → t ≠ [] → matchCtxAt (t ++ ys) = none) :
    searchCtx (xs ++ ys) = searchCtx ys := by
  induction xs with
  | nil => simp
  | cons c xs' ih =>
    have h1 : matchCtxAt ((c :: xs') ++ ys) = none := h _ (List.suffix_refl _) (by simp)
    rw [List.cons_append] at h1 ⊢
    rw [searchCtx, h1]
    exact ih fun t ht hne => h t (ht.trans (List.suffix_cons c xs')) hne

theorem ctxfail_append {xs₁ xs₂ ys : List Char}
    (h₁ : ∀ t, t <:+ xs₁ → t ≠ [] → matchCtxAt (t ++ (xs₂ ++ ys)) = none)
    (h₂ : ∀ t, t <:+ xs₂ → t ≠ [] → matchCtxAt (t ++ ys) = none) :
    ∀ t, t <:+ xs₁ ++ xs₂ → t ≠ [] → matchCtxAt (t ++ ys) = none := by
  intro t ht hne
  rcases suffix_append_split ht with h | ⟨u, hu, hune, rfl⟩
  · exact h₂ t h hne
  · rw [List.append_assoc]
    exact h₁ u hu hune

theorem ctxFail_nodigit (L ys : List Char) (h : ∀ c ∈ L, isDigitCh c = false) :
    ∀ t, t <:+ L → t ≠ [] → matchCtxAt (t ++ ys) = none := by
  intro t ht hne
  cases t with
  | nil => exact absurd rfl hne
  | cons c t' =>
    exact matchCtxAt_not_digit _ (h c (ht.subset (by simp)))


theorem matchCtxAt_digits (N r : List Char) (hN1 : N ≠ [])
    (hN2 : ∀ c ∈ N, isDigitCh c = true) :
    matchCtxAt (N ++ ' ' :: (ctxLit ++ r)) = some N := by
  have hTW : (N ++ ' ' :: (ctxLit ++ r)).takeWhile isDigitCh = N := by
    rw [takeWhile_all_append isDigitCh N hN2, List.takeWhile_cons, if_neg (by decide)]
    simp
  have hDW2 : ((N ++ ' ' :: (ctxLit ++ r)).dropWhile isDigitCh).dropWhile isWs
      = ctxLit ++ r := by
    rw [dropWhile_all_append isDigitCh N hN2, List.dropWhile_cons, if_neg (by decide)]
    rw [List.dropWhile_cons, if_pos (by decide)]
    rw [show ctxLit ++ r = 'C' :: (("ontext").data ++ r) from rfl]
    rw [List.dropWhile_cons, if_neg (by decide)]
  unfold matchCtxAt
  dsimp only
  rw [hTW, hDW2, if_neg (by simp [hN1]), expectLit_append]

theorem searchCtx_mkDual (A B N : List Char)
    (hA : ∀ c ∈ A, isNumCh c = true) (hB : ∀ c ∈ B, isNumCh c = true)
    (hN1 : N ≠ []) (hN2 : ∀ c ∈ N, isDigitCh c = true) :
    searchCtx (mkDualFragment A B N) = some N := by
  have hys : searchCtx (N ++ ' ' :: ctxLit) = some N := by
    cases N with
    | nil => exact absurd rfl hN1
    | cons n0 N' =>
      have hm : matchCtxAt ((n0 :: N') ++ ' ' :: (ctxLit ++ [])) = some (n0 :: N') :=
        matchCtxAt_digits (n0 :: N') [] (by simp) (by simpa using hN2)
      rw [List.append_nil] at hm
      rw [List.cons_append] at hm ⊢
      rw [searchCtx, hm]
  have hfail : ∀ t, t <:+ ('$' :: []) ++ (A ++ (lit1 ++ (B ++ lit2))) → t ≠ [] →
      matchCtxAt (t ++ (N ++ ' ' :: ctxLit)) = none := by
    have h5 : ∀ t, t <:+ lit2 → t ≠ [] →
        matchCtxAt (t ++ (N ++ ' ' :: ctxLit)) = none :=
      ctxFail_nodigit lit2 _ (by decide)
    have h4 : ∀ t, t <:+ B → t ≠ [] →
        matchCtxAt (t ++ (lit2 ++ (N ++ ' ' :: ctxLit))) = none := by
      intro t ht _
      exact ctxFail_numRun t (("M Output • ").data ++ (N ++ ' ' :: ctxLit))
        (fun c hc => hB c (ht.subset hc))
    have h45 := ctxfail_append h4 h5
    have h3 : ∀ t, t <:+ lit1 → t ≠ [] →
        matchCtxAt (t ++ ((B ++ lit2) ++ (N ++ ' ' :: ctxLit))) = none :=
      ctxFail_nodigit lit1 _ (by decide)
    have h35 := ctxfail_append h3 h45
    have h2 : ∀ t, t <:+ A → t ≠ [] →
        matchCtxAt (t ++ ((lit1 ++ (B ++ lit2)) ++ (N ++ ' ' :: ctxLit))) = none := by
      intro t ht _
      exact ctxFail_numRun t ((("M Input • $").data ++ (B ++ lit2)) ++ (N ++ ' ' :: ctxLit))
        (fun c hc => hA c (ht.subset hc))
    have h25 := ctxfail_append h2 h35
    have h1 : ∀ t, t <:+ ('$' :: []) → t ≠ [] →
        matchCtxAt (t ++ ((A ++ (lit1 ++ (B ++ lit2))) ++ (N ++ ' ' :: ctxLit))) = none :=
      ctxFail_nodigit ('$' :: []) _ (by decide)
    exact ctxfail_append h1 h25
  have hfrag : mkDualFragment A B N
      = (('$' :: []) ++ (A ++ (lit1 ++ (B ++ lit2)))) ++ (N ++ ' ' :: ctxLit) := by
    have hr : (('$' :: []) ++ (A ++ (lit1 ++ (B ++ lit2)))) ++ (N ++ ' ' :: ctxLit)
        = '$' :: (A ++ (lit1 ++ (B ++ (lit2 ++ (N ++ ' ' :: ctxLit))))) := by
      simp [List.append_assoc]
    rw [hr]
    rfl
  rw [hfrag, searchCtx_append_of_fail _ _ hfail]
  exact hys

theorem matchIOAt_mkDual (A B N : List Char) (hA1 : ¬A = []) (hA : ∀ c ∈ A, isNumCh c = true)
    (hB1 : ¬B = []) (hB : ∀ c ∈ B, isNumCh c = true) :
    matchIOAt (mkDualFragment A B N) = some (A, B) := by
  have hAE : A.isEmpty = false := by
    cases A with
    | nil => exact absurd rfl hA1
    | cons _ _ => rfl
  have hBE : B.isEmpty = false := by
    cases B with
    | nil => exact absurd rfl hB1
    | cons _ _ => rfl
  simp only [mkDualFragment, matchIOAt,
    show slashM = ['/', 'M'] from rfl,
    show inputLit = ['I', 'n', 'p', 'u', 't'] from rfl,
    show outputLit = ['O', 'u', 't', 'p', 'u', 't'] from rfl,
    List.cons_append, List.nil_append]
  simp [takeWhile_all_append isNumCh A hA, dropWhile_all_append isNumCh A hA,
    takeWhile_all_append isNumCh B hB, dropWhile_all_append isNumCh B hB,
    List.takeWhile_cons, List.dropWhile_cons, expectLit, hAE, hBE,
    show isNumCh '/' = false from by decide,
    show isWs ' ' = true from by decide,
    show isWs 'I' = false from by decide,
    show isWs '•' = false from by decide,
    show isWs '$' = false from by decide,
    show isWs 'O' = false from by decide]

/-- C6: every well-formed dual-price fragment `$A/M Input • $B/M Output •
N Context` parses to exactly the input/output pair `(A, B)`, no unified
price, and context length `N`. -/
theorem parse_pricing_dual_fragment (A B N : List Char)
    (hA : validNumeral A) (hB : validNumeral B)
    (hN1 : N ≠ []) (hN2 : ∀ c ∈ N, isDigitCh c = true) :
    parse_pricing (mkDualFragment A B N) =
      (some (ratOfNumeral A), some (ratOfNumeral B), none, some (natVal N)) := by
  obtain ⟨hA1, hA2, _, _⟩ := hA
  obtain ⟨hB1, hB2, _, _⟩ := hB
  have hio : searchInOut (mkDualFragment A B N) = some (A, B) := by
    have hm := matchIOAt_mkDual A B N hA1 hA2 hB1 hB2
    rw [show mkDualFragment A B N
        = '$' :: (A ++ (slashM ++ (' ' :: (inputLit ++ (' ' :: '•' :: ' ' :: '$' ::
          (B ++ (slashM ++ (' ' :: (outputLit ++ (' ' :: '•' :: ' ' ::
            (N ++ (' ' :: ctxLit)))))))))))) from rfl] at hm ⊢
    rw [searchInOut, hm]
  have hctx := searchCtx_mkDual A B N hA2 hB2 hN1 hN2
  unfold parse_pricing
  rw [hio, hctx]
  rfl

/-- Witness for C6 at the spec's own example fragment. -/
theorem parse_pricing_dual_fragment_witness :
    parse_pricing (mkDualFragment (("0.45").data) (("1.8").data) (("262144").data)) =
      (some (ratOfNumeral (("0.45").data)), some (ratOfNumeral (("1.8").data)), none,
       some (natVal (("262144").data))) :=
  parse_pricing_dual_fragment (("0.45").data) (("1.8").data) (("262144").data)
    (by refine ⟨by decide, by decide, by decide, by decide⟩)
    (by refine ⟨by decide, by decide, by decide, by decide⟩)
    (by decide) (by decide)
